import Mathlib

/-!
Shallow embedding of the tegu high-availability controller
(src/system/tegu_ha.py) and proofs about its decision logic.

Python-level effects are made explicit: fallible operations return
Except PyExn, subprocess outputs are supplied through environment
records, and machine behaviour (string splitting, int parsing,
lexicographic string comparison) is modelled executably.
-/

/-- Python exceptions that the embedded code can raise. -/
inductive PyExn where
  | calledProcessError
  | valueError
  | indexError
  | nameError
deriving DecidableEq, Repr

/-- Split a character list at every separator character (those where p
holds), keeping empty pieces, as the Python str.split(sep) does. -/
def splitKeep (p : Char → Bool) : List Char → List (List Char)
  | [] => [[]]
  | c :: cs =>
    match splitKeep p cs with
    | [] => if p c then [[], []] else [[c]]
    | h :: t => if p c then [] :: h :: t else (c :: h) :: t

/-- Model of the Python str.split(sep) with an explicit one-character
separator: split at the separator, keeping empty pieces. -/
def pySplitOn (sep : Char) (s : String) : List String :=
  (splitKeep (fun c => c = sep) s.data).map String.mk

/-- Model of the Python str.split() with no arguments: split on runs of
whitespace and drop empty pieces. -/
def pySplitWs (s : String) : List String :=
  ((splitKeep Char.isWhitespace s.data).map String.mk).filter (fun t => t ≠ "")

/-- Read a nonempty all-digit character list as a natural number. -/
def digitsToNat (l : List Char) : Option Nat :=
  if l ≠ [] ∧ l.all Char.isDigit then
    some (l.foldl (fun acc c => acc * 10 + (c.toNat - 48)) 0)
  else none

/-- Model of the Python int(str) conversion: strip whitespace, allow one
sign character, then require a nonempty run of digits; none models the
ValueError raised on any other input. -/
def pyInt (s : String) : Option Int :=
  let t := ((s.data.dropWhile Char.isWhitespace).reverse.dropWhile
    Char.isWhitespace).reverse
  match t with
  | [] => none
  | c :: rest =>
    if c = Char.ofNat 45 then (digitsToNat rest).map (fun n => -(n : Int))
    else if c = Char.ofNat 43 then (digitsToNat rest).map (fun n => (n : Int))
    else (digitsToNat t).map (fun n => (n : Int))

/-- Parse a 1-2 digit numeric field of strptime, checking its range. -/
def parseField (s : String) (lo hi : Nat) : Option Nat :=
  if s.data.length ≤ 2 then
    match digitsToNat s.data with
    | some n => if lo ≤ n ∧ n ≤ hi then some n else none
    | none => none
  else none

/-- Parse the four-digit year field of strptime. -/
def parseYear (s : String) : Option Nat :=
  if s.data.length = 4 then digitsToNat s.data else none

/-- Model of time.strptime with the fixed format used by the script,
year-month-day hour:minute:second; none models the ValueError raised on
input that does not match the format. -/
def strptimeYmdHms (s : String) : Option (Nat × Nat × Nat × Nat × Nat × Nat) :=
  match pySplitWs s with
  | [d, t] =>
    match pySplitOn (Char.ofNat 45) d, pySplitOn (Char.ofNat 58) t with
    | [ys, ms, ds], [hs, mis, ss] =>
      match parseYear ys, parseField ms 1 12, parseField ds 1 31,
            parseField hs 0 23, parseField mis 0 59, parseField ss 0 61 with
      | some y, some mo, some da, some ho, some mi, some se =>
          some (y, mo, da, ho, mi, se)
      | _, _, _, _, _, _ => none
    | _, _ => none
  | _ => none

/-- Days from the civil epoch 1970-01-01 (proleptic Gregorian). -/
def daysFromCivil (y : Int) (m d : Nat) : Int :=
  let y2 : Int := if m ≤ 2 then y - 1 else y
  let era : Int := (if 0 ≤ y2 then y2 else y2 - 399) / 400
  let yoe : Int := y2 - era * 400
  let mp : Int := if m > 2 then (m : Int) - 3 else (m : Int) + 9
  let doy : Int := (153 * mp + 2) / 5 + (d : Int) - 1
  let doe : Int := yoe * 365 + yoe / 4 - yoe / 100 + doy
  era * 146097 + doe - 719468

/-- Model of time.mktime on a parsed time tuple, as seconds since the
epoch (timezone taken as UTC; no claim depends on the absolute value). -/
def mktime (tm : Nat × Nat × Nat × Nat × Nat × Nat) : Int :=
  match tm with
  | (y, mo, da, ho, mi, se) =>
      daysFromCivil (y : Int) mo da * 86400 + (ho : Int) * 3600 +
        (mi : Int) * 60 + (se : Int)

/-- Embedding of extract_dt(str, c1, c2): tokenize the listing line,
take the dot-prefix of token c2, parse token c1 plus that prefix with
strptime and convert with mktime. The try block catches any exception,
but the handler itself evaluates toks[c1] and then ttoks[0] for its log
line, so on inputs where those are unavailable the handler raises:
IndexError when toks[c1] is out of range, NameError when ttoks was never
bound (toks[c2] had failed before the binding). -/
def extract_dt (str : String) (c1 c2 : Nat) : Except PyExn Int :=
  let toks := pySplitWs str
  match toks.get? c2 with
  | none =>
      match toks.get? c1 with
      | none => .error .indexError
      | some _ => .error .nameError
  | some t2 =>
      let ttoks := pySplitOn (Char.ofNat 46) t2
      match toks.get? c1 with
      | none => .error .indexError
      | some t1 =>
          match strptimeYmdHms (t1 ++ " " ++ ttoks.headD "") with
          | none => .ok 0
          | some tm => .ok (mktime tm)

/-- Embedding of the final comparison of should_be_active (the
CheckpointComparator of the spec): remote wins iff its skew-corrected
timestamp is strictly newer, or equal with the remote hostname
lexicographically smaller than the local one. -/
def shouldRemoteBeActive (ts_r ts_l skew : Int)
    (remoteHost localHost : String) : Bool :=
  decide (ts_r + skew > ts_l) ||
    (decide (ts_r + skew = ts_l) && decide (remoteHost < localHost))

/-- Decidable equality for Except values, used to evaluate the embedded
code at concrete inputs. -/
instance instDecEqExceptPy {ε α : Type} [DecidableEq ε] [DecidableEq α] :
    DecidableEq (Except ε α) := fun x y =>
  match x, y with
  | .ok a, .ok b =>
      if h : a = b then isTrue (by rw [h])
      else isFalse (by intro hh; cases hh; exact h rfl)
  | .error a, .error b =>
      if h : a = b then isTrue (by rw [h])
      else isFalse (by intro hh; cases hh; exact h rfl)
  | .ok _, .error _ => isFalse (by intro hh; cases hh)
  | .error _, .ok _ => isFalse (by intro hh; cases hh)

/-- Environment of one should_be_active(host) call: the results of the
subprocess invocations it makes, in order. A Bool models the success of
a check_call on the sync command; an Option String models check_output
(none is the CalledProcessError raised on nonzero exit, some s is the
captured output). localFqdn is the value of socket.getfqdn(). -/
structure SBAEnv where
  syncRemote : Bool
  syncLocal : Bool
  clockRemoteOut : Option String
  clockLocalOut : Option String
  tsRemoteOut : Option String
  tsLocalOut : Option String
  localFqdn : String

/-- Try block of should_be_active: read both clocks and convert with
int() (ValueError on unparseable output), compute skew = local - remote,
fetch both checkpoint listings, and on an empty listing execute the
statement return false, whose lowercase name is undefined and therefore
raises NameError; otherwise extract both timestamps and compare. -/
def should_be_active_try (env : SBAEnv) (host : String) : Except PyExn Bool :=
  match env.clockRemoteOut with
  | none => .error .calledProcessError
  | some sr =>
    match pyInt sr with
    | none => .error .valueError
    | some time_r =>
      match env.clockLocalOut with
      | none => .error .calledProcessError
      | some sl =>
        match pyInt sl with
        | none => .error .valueError
        | some time_l =>
          let skew := time_l - time_r
          match env.tsRemoteOut with
          | none => .error .calledProcessError
          | some ts_r_s =>
            match env.tsLocalOut with
            | none => .error .calledProcessError
            | some ts_l_s =>
              if ts_r_s = "" ∨ ts_l_s = "" then
                .error .nameError
              else
                match extract_dt ts_r_s 3 4 with
                | .error e => .error e
                | .ok ts_r =>
                  match extract_dt ts_l_s 5 6 with
                  | .error e => .error e
                  | .ok ts_l =>
                    .ok (shouldRemoteBeActive ts_r ts_l skew host env.localFqdn)

/-- Embedding of should_be_active(host). First pull the remote and then
the local checkpoints; a failed pull decides immediately. Then run the
try block; its except clause catches only CalledProcessError (falling
through to return False), so every other exception propagates to the
caller. -/
def should_be_active (env : SBAEnv) (host : String) : Except PyExn Bool :=
  if !env.syncRemote then .ok false
  else if !env.syncLocal then .ok true
  else
    match should_be_active_try env host with
    | .error .calledProcessError => .ok false
    | r => r

/-- Environment where both pulls and both clock reads succeed but the
remote checkpoint listing is empty. -/
def envEmptyListing : SBAEnv :=
  ⟨true, true, some "100", some "100", some "", some "x", "self.node"⟩

/-- Environment where both pulls succeed but the remote clock command
prints output that int() cannot parse. -/
def envBadClock : SBAEnv :=
  ⟨true, true, some "abc", some "100", some "x", some "y", "self.node"⟩

/-- Heartbeat interval in seconds. -/
def HEARTBEAT_SEC : Nat := 5

/-- Backoff unit in seconds, multiplied by the priority when waiting. -/
def PRI_WAIT_SEC : Nat := 5

/-- Sleep executed at the top of a loop iteration, as a function of the
priority_wait flag left by the previous iteration: a normal heartbeat,
or the priority-scaled backoff. -/
def sleepTime (priority_wait : Bool) (priority : Nat) : Nat :=
  if !priority_wait then HEARTBEAT_SEC else PRI_WAIT_SEC * priority

/-- Externally visible commands issued during one cycle of main_loop. -/
inductive Event where
  | resolveConflict (host : String)
  | deactivateSelf
  | deactivateHost (host : String)
  | activateSelf
deriving DecidableEq, Repr

/-- Environment of one cycle of main_loop: probe results for self and
for each peer, the outcome of should_be_active for each peer, and the
results the activation and deactivation commands would report. -/
structure LoopEnv where
  isActiveSelf : Bool
  isActiveHost : String → Bool
  resolve : String → Except PyExn Bool
  deactSelfOk : Bool
  deactHostOk : String → Bool
  activateOk : Bool

/-- Embedding of deactivate_tegu: check_call success gives True,
CalledProcessError gives False. -/
def deactivate_tegu (cmdOk : Bool) : Bool :=
  if cmdOk then true else false

/-- Embedding of activate_tegu: check_call success gives True,
CalledProcessError gives False. -/
def activate_tegu (cmdOk : Bool) : Bool :=
  if cmdOk then true else false

/-- Result of one cycle of main_loop: the commands issued, the final
values of i_am_active and any_active, and the priority_wait flag handed
to the next iteration. -/
structure CycleOut where
  events : List Event
  iAmActive : Bool
  anyActive : Bool
  priorityWait : Bool
deriving DecidableEq, Repr

/-- Embedding of the peer-scanning for-loop of main_loop, threading
i_am_active, any_active and the issued commands. Entries equal to
this_node are skipped; when both self and the peer probe active, the
split-brain branch runs should_be_active (whose exceptions propagate,
since main_loop has no handler) and overwrites host_active with its
decision, discarding the boolean result of the deactivation command. -/
def processHosts (env : LoopEnv) (this_node : String) :
    List String → Bool → Bool → List Event →
      Except PyExn (Bool × Bool × List Event)
  | [], i, a, evs => .ok (i, a, evs)
  | host :: rest, i, a, evs =>
    if host = this_node then processHosts env this_node rest i a evs
    else
      let host_active := env.isActiveHost host
      if i && host_active then
        match env.resolve host with
        | .error e => .error e
        | .ok ha =>
          if ha then
            let _ := deactivate_tegu env.deactSelfOk
            processHosts env this_node rest false (a || ha)
              (evs ++ [.resolveConflict host, .deactivateSelf])
          else
            let _ := deactivate_tegu (env.deactHostOk host)
            processHosts env this_node rest i (a || ha)
              (evs ++ [.resolveConflict host, .deactivateHost host])
      else processHosts env this_node rest i (a || host_active) evs

/-- Embedding of one iteration of main_loop after its initial sleep:
probe self, scan the peers, and if no tegu is active either activate self
(when already waiting or highest priority) or enter the waiting state. -/
def mainCycle (env : LoopEnv) (standby_list : List String)
    (this_node : String) (priority : Nat) (priority_wait : Bool) :
    Except PyExn CycleOut :=
  match processHosts env this_node standby_list env.isActiveSelf
      env.isActiveSelf [] with
  | .error e => .error e
  | .ok (i, a, evs) =>
    if !a then
      if priority_wait || priority = 0 then
        let _ := activate_tegu env.activateOk
        .ok ⟨evs ++ [.activateSelf], i, a, false⟩
      else .ok ⟨evs, i, a, true⟩
    else .ok ⟨evs, i, a, priority_wait⟩

/-- Whether some standby-list entry other than this_node probes active. -/
def peerActive (env : LoopEnv) (this_node : String) (l : List String) : Bool :=
  l.any (fun x => decide (x ≠ this_node) && env.isActiveHost x)

/-- Embedding of the Python list.index: position of the first
occurrence, none for the ValueError on absence. -/
def pyListIndex : List String → String → Option Nat
  | [], _ => none
  | y :: rest, x =>
      if y = x then some 0 else (pyListIndex rest x).map (fun n => n + 1)

/-- Embedding of the Python list.remove: drop the first occurrence. -/
def pyListRemove : List String → String → List String
  | [], _ => []
  | y :: rest, x => if y = x then rest else y :: pyListRemove rest x

/-- Embedding of the startup section of main: priority is the index of
this_node in the standby list and its first occurrence is removed from
the working copy; the ValueError when it is absent leads to sys.exit(1),
modelled as the error carrying the exit status. -/
def mainStartup (standby_list : List String) (this_node : String) :
    Except Nat (Nat × List String) :=
  match pyListIndex standby_list this_node with
  | some i => .ok (i, pyListRemove standby_list this_node)
  | none => .error 1

/-- Environment in which no node probes active. -/
def envAllQuiet : LoopEnv :=
  ⟨false, fun _ => false, fun _ => .ok false, true, fun _ => true, true⟩

/-- Environment in which self is inactive and exactly the peer n1
probes active. -/
def envOnePeer : LoopEnv :=
  ⟨false, fun h => h == "n1", fun _ => .ok false, true, fun _ => true, true⟩

/-- Environment with a split brain in which the resolver cedes to the
remote while every deactivation command fails. -/
def envSplitRemote : LoopEnv :=
  ⟨true, fun _ => true, fun _ => .ok true, false, fun _ => false, true⟩

/-- Cycle environment in which self and the peer both probe active and
conflict resolution runs should_be_active under envBadClock. -/
def envLoopBadClock : LoopEnv :=
  ⟨true, fun _ => true, fun h => should_be_active envBadClock h, true,
    fun _ => true, true⟩

/-- C1: the comparator returns true iff ts_r + skew > ts_l, or
ts_r + skew = ts_l with the remote hostname lexicographically smaller;
in particular whenever ts_r + skew > ts_l it returns true regardless of
the hostnames. -/
theorem comparator_decision_rule (ts_r ts_l skew : Int)
    (remoteHost localHost : String) :
    (shouldRemoteBeActive ts_r ts_l skew remoteHost localHost = true ↔
      (ts_r + skew > ts_l ∨
        (ts_r + skew = ts_l ∧ remoteHost < localHost))) ∧
    (ts_r + skew > ts_l →
      shouldRemoteBeActive ts_r ts_l skew remoteHost localHost = true) := by
  constructor
  · simp [shouldRemoteBeActive]
  · intro h
    simp [shouldRemoteBeActive, h]

/-- Witness for comparator_decision_rule at concrete inputs. -/
theorem comparator_decision_rule_witness :
    ((5 : Int) + 0 > 3) ∧
      shouldRemoteBeActive 5 3 0 "zzz" "aaa" = true :=
  ⟨by decide, (comparator_decision_rule 5 3 0 "zzz" "aaa").2 (by decide)⟩

/-- C2: complementarity of the comparator across the two nodes. Node A
evaluates the pair with remote B and skew tA - tB; node B evaluates it
with remote A and skew tB - tA; for distinct hostnames exactly one of
the two evaluations returns true. -/
theorem comparator_complementary (A B : String) (tsA tsB tA tB : Int)
    (hAB : A ≠ B) :
    shouldRemoteBeActive tsB tsA (tA - tB) B A =
      !(shouldRemoteBeActive tsA tsB (tB - tA) A B) := by
  unfold shouldRemoteBeActive
  rcases lt_trichotomy (tsA - tA) (tsB - tB) with hc | hc | hc
  · have h1 : tsA < tsB + (tA - tB) := by omega
    have h2 : ¬ tsB < tsA + (tB - tA) := by omega
    have h3 : ¬ tsA + (tB - tA) = tsB := by omega
    simp [h1, h2, h3]
  · have h1 : ¬ tsA < tsB + (tA - tB) := by omega
    have h2 : ¬ tsB < tsA + (tB - tA) := by omega
    have h3 : tsB + (tA - tB) = tsA := by omega
    have h4 : tsA + (tB - tA) = tsB := by omega
    have h5 : (decide (B < A) : Bool) = !decide (A < B) := by
      rcases lt_or_gt_of_ne hAB with h | h
      · simp [h, asymm h]
      · simp [h, asymm h]
    rw [decide_eq_false h1, decide_eq_false h2, decide_eq_true h3,
      decide_eq_true h4]
    simpa using h5
  · have h1 : ¬ tsA < tsB + (tA - tB) := by omega
    have h2 : tsB < tsA + (tB - tA) := by omega
    have h3 : ¬ tsB + (tA - tB) = tsA := by omega
    simp [h1, h2, h3]

/-- Witness for comparator_complementary at concrete inputs. -/
theorem comparator_complementary_witness :
    ("alpha" : String) ≠ "beta" ∧
      shouldRemoteBeActive 100 100 0 "beta" "alpha" =
        !(shouldRemoteBeActive 100 100 0 "alpha" "beta") :=
  ⟨by decide, comparator_complementary "alpha" "beta" 100 100 7 7 (by decide)⟩

/-- C8: asymmetric conservative defaults on sync failure. If the remote
pull fails, should_be_active returns false (keep self) at once; if the
remote pull succeeds and the local pull fails, it returns true (keep
remote) at once, whatever the rest of the environment holds. -/
theorem sync_failure_defaults (env : SBAEnv) (host : String) :
    (env.syncRemote = false → should_be_active env host = .ok false) ∧
    (env.syncRemote = true → env.syncLocal = false →
      should_be_active env host = .ok true) := by
  constructor
  · intro h
    simp [should_be_active, h]
  · intro h1 h2
    simp [should_be_active, h1, h2]

/-- Witness for sync_failure_defaults at concrete environments. -/
theorem sync_failure_defaults_witness :
    should_be_active
        ⟨false, true, none, none, none, none, "self"⟩ "peer" = .ok false ∧
      should_be_active
        ⟨true, false, none, none, none, none, "self"⟩ "peer" = .ok true :=
  ⟨(sync_failure_defaults ⟨false, true, none, none, none, none, "self"⟩
      "peer").1 rfl,
    (sync_failure_defaults ⟨true, false, none, none, none, none, "self"⟩
      "peer").2 rfl rfl⟩

/-- C6 (code bug): with both pulls and both clock reads successful and
an empty checkpoint listing, the statement return false evaluates the
undefined lowercase name false, so should_be_active raises NameError
instead of returning False; the NameError is not a CalledProcessError,
so it escapes the except clause. -/
theorem empty_listing_raises :
    should_be_active envEmptyListing "peer.node" = .error .nameError := by
  decide

/-- C7 (code bug): extract_dt on an input with too few tokens raises
IndexError. The try block catches the IndexError of toks[c2], but the
handler evaluates toks[c1] for its log line, which raises IndexError
again, past the extraction boundary; a well-formed line with an
unparseable date does return the sentinel 0. -/
theorem extract_dt_short_input_raises :
    extract_dt "" 3 4 = .error .indexError ∧
      extract_dt "a b c d e f" 5 6 = .error .nameError ∧
      extract_dt "a b c notadate neither f g" 3 4 = .ok 0 := by
  refine ⟨by decide, by decide, by decide⟩

/-- When the split-brain branch can never fire (self inactive, or every
peer inactive), the scan issues no commands, leaves i_am_active at its
initial value, and ors the peer probes into any_active. -/
theorem processHosts_no_split (env : LoopEnv) (node : String) :
    ∀ (l : List String) (i0 a : Bool) (evs : List Event),
      (i0 = true → ∀ x ∈ l, x ≠ node → env.isActiveHost x = false) →
      processHosts env node l i0 a evs =
        .ok (i0, a || peerActive env node l, evs) := by
  intro l
  induction l with
  | nil =>
    intro i0 a evs _
    simp [processHosts, peerActive]
  | cons x rest ih =>
    intro i0 a evs h
    by_cases hx : x = node
    · subst hx
      have := ih i0 a evs (fun hi y hy hne => h hi y (List.mem_cons_of_mem _ hy) hne)
      simp [processHosts, peerActive, this]
    · cases hi0 : i0 with
      | false =>
        have := ih false (a || env.isActiveHost x) evs (fun hi => by cases hi)
        simp [processHosts, hx, this, peerActive, Bool.or_assoc]
      | true =>
        have hact : env.isActiveHost x = false :=
          h hi0 x (List.mem_cons_self x rest) hx
        have := ih true a evs
          (fun hi y hy hne => h hi0 y (List.mem_cons_of_mem _ hy) hne)
        simp [processHosts, hx, hact, this, peerActive]

/-- any_active never drops back to false once true. -/
theorem processHosts_any_true (env : LoopEnv) (node : String) :
    ∀ (l : List String) (i : Bool) (evs : List Event)
      (out : Bool × Bool × List Event),
      processHosts env node l i true evs = .ok out → out.2.1 = true := by
  intro l
  induction l with
  | nil =>
    intro i evs out hout
    simp [processHosts] at hout
    simp [← hout]
  | cons x rest ih =>
    intro i evs out hout
    by_cases hx : x = node
    · simp [processHosts, hx] at hout
      exact ih i evs out hout
    · simp [processHosts, hx] at hout
      by_cases hcond : i = true ∧ env.isActiveHost x = true
      · rw [if_pos hcond] at hout
        rcases hres : env.resolve x with e | ha
        · rw [hres] at hout
          cases hout
        · rw [hres] at hout
          cases ha with
          | true => simpa using ih false _ out (by simpa using hout)
          | false => simpa using ih i _ out (by simpa using hout)
      · rw [if_neg hcond] at hout
        simpa using ih i evs out (by simpa using hout)

/-- The scan only appends events, and never an activation event. -/
theorem processHosts_events_extend (env : LoopEnv) (node : String) :
    ∀ (l : List String) (i a : Bool) (evs : List Event)
      (i2 a2 : Bool) (evs2 : List Event),
      processHosts env node l i a evs = .ok (i2, a2, evs2) →
      ∃ extra, evs2 = evs ++ extra ∧ Event.activateSelf ∉ extra := by
  intro l
  induction l with
  | nil =>
    intro i a evs i2 a2 evs2 hout
    simp [processHosts] at hout
    exact ⟨[], by simp [hout.2.2], by simp⟩
  | cons x rest ih =>
    intro i a evs i2 a2 evs2 hout
    by_cases hx : x = node
    · simp [processHosts, hx] at hout
      exact ih i a evs i2 a2 evs2 hout
    · simp [processHosts, hx] at hout
      by_cases hcond : i = true ∧ env.isActiveHost x = true
      · rw [if_pos hcond] at hout
        rcases hres : env.resolve x with e | ha
        · rw [hres] at hout
          cases hout
        · rw [hres] at hout
          cases ha with
          | true =>
            rcases ih _ _ _ _ _ _ (by simpa using hout) with ⟨extra, he, hni⟩
            refine ⟨[.resolveConflict x, .deactivateSelf] ++ extra, ?_, ?_⟩
            · simpa using he
            · simpa using hni
          | false =>
            rcases ih _ _ _ _ _ _ (by simpa using hout) with ⟨extra, he, hni⟩
            refine ⟨[.resolveConflict x, .deactivateHost x] ++ extra, ?_, ?_⟩
            · simpa using he
            · simpa using hni
      · rw [if_neg hcond] at hout
        exact ih _ _ _ _ _ _ (by simpa using hout)

/-- If self probes active, or some peer probes active, the cycle issues
no activation command. -/
theorem mainCycle_no_activate (env : LoopEnv) (l : List String)
    (node : String) (prio : Nat) (pw : Bool)
    (ha : env.isActiveSelf = true ∨ peerActive env node l = true) :
    ∀ out : CycleOut, mainCycle env l node prio pw = .ok out →
      Event.activateSelf ∉ out.events := by
  intro out hout
  unfold mainCycle at hout
  rcases hph : processHosts env node l env.isActiveSelf env.isActiveSelf []
    with e | ⟨i, a, evs⟩
  · rw [hph] at hout
    cases hout
  · rw [hph] at hout
    have haT : a = true := by
      by_cases hself : env.isActiveSelf = true
      · rw [hself] at hph
        exact processHosts_any_true env node l true [] (i, a, evs) hph
      · have hF : env.isActiveSelf = false := by simpa using hself
        rcases ha with h1 | h2
        · exact absurd h1 hself
        · rw [hF] at hph
          rw [processHosts_no_split env node l false false []
            (fun hi => by cases hi)] at hph
          cases hph
          simpa using h2
    rw [haT] at hout
    simp at hout
    rcases processHosts_events_extend env node l env.isActiveSelf
      env.isActiveSelf [] i true evs (by rw [hph, haT]) with ⟨extra, he, hni⟩
    rw [← hout]
    simpa [he] using hni

/-- C3: in a cycle where neither self nor any peer probes active, if the
waiting flag is set or the priority is 0 the cycle activates self at
once and clears the flag; otherwise it issues nothing, sets the flag, so
that the sleep before the next poll is priority times the backoff unit,
and on that next poll an activation is issued only if still no node
probes active. -/
theorem zero_active_cycle (env : LoopEnv) (standby_list : List String)
    (this_node : String) (priority : Nat) (priority_wait : Bool)
    (hself : env.isActiveSelf = false)
    (hpeers : ∀ x ∈ standby_list, x ≠ this_node →
      env.isActiveHost x = false) :
    (priority_wait = true ∨ priority = 0 →
      mainCycle env standby_list this_node priority priority_wait =
        .ok ⟨[.activateSelf], false, false, false⟩) ∧
    (priority_wait = false → priority ≠ 0 →
      mainCycle env standby_list this_node priority priority_wait =
        .ok ⟨[], false, false, true⟩ ∧
      sleepTime true priority = PRI_WAIT_SEC * priority) ∧
    (∀ (env2 : LoopEnv) (out : CycleOut),
      env2.isActiveSelf = true ∨ peerActive env2 this_node standby_list = true →
      mainCycle env2 standby_list this_node priority true = .ok out →
      Event.activateSelf ∉ out.events) := by
  have hpa : peerActive env this_node standby_list = false := by
    simp only [peerActive, List.any_eq_false]
    intro x hx
    by_cases hxn : x = this_node
    · simp [hxn]
    · simp [hxn, hpeers x hx hxn]
  have hph := processHosts_no_split env this_node standby_list false false []
    (fun hi => by cases hi)
  rw [hpa] at hph
  have hmain : ∀ pw2 : Bool,
      mainCycle env standby_list this_node priority pw2 =
        if pw2 || priority = 0
          then .ok ⟨[.activateSelf], false, false, false⟩
          else .ok ⟨[], false, false, true⟩ := by
    intro pw2
    unfold mainCycle
    rw [hself, hph]
    by_cases hc : (pw2 || decide (priority = 0)) = true
    · simp [hc]
    · simp [hc]
  refine ⟨?_, ?_, ?_⟩
  · intro h
    rw [hmain]
    rcases h with h | h
    · simp [h]
    · simp [h]
  · intro h1 h2
    refine ⟨?_, ?_⟩
    · rw [hmain]
      simp [h1, h2]
    · simp [sleepTime]
  · intro env2 out ha hout
    exact mainCycle_no_activate env2 standby_list this_node priority true
      ha out hout

/-- Witness for zero_active_cycle at a concrete environment. -/
theorem zero_active_cycle_witness :
    mainCycle envAllQuiet ["n0", "n1"] "n0" 1 true =
      .ok ⟨[.activateSelf], false, false, false⟩ :=
  (zero_active_cycle envAllQuiet ["n0", "n1"] "n0" 1 true rfl
    (fun _ _ _ => rfl)).1 (Or.inl rfl)

/-- C4 counterexample: with the waiting flag set on entry (priority 2),
a cycle seeing exactly one active node (peer n1; self and every other
peer inactive) issues no command, but leaves the waiting flag set, so
the sleep before the next poll is 10 seconds, not the 5-second heartbeat
the claim states. -/
theorem one_active_heartbeat_counterexample :
    envOnePeer.isActiveSelf = false ∧
    envOnePeer.isActiveHost "n1" = true ∧
    (∀ x ∈ (["n0", "n1"] : List String), x ≠ "n0" → x ≠ "n1" →
      envOnePeer.isActiveHost x = false) ∧
    mainCycle envOnePeer ["n0", "n1"] "n0" 2 true =
      .ok ⟨[], false, true, true⟩ ∧
    sleepTime true 2 ≠ HEARTBEAT_SEC := by
  decide

/-- C4 amended: in a cycle where exactly one node among self and peers
probes active, no conflict resolution runs and no command is issued, and
the waiting flag is left unchanged; hence the sleep before the next poll
is one heartbeat interval when the cycle was entered in the normal
state, but priority times the backoff unit when it was entered in the
waiting state. -/
theorem exactly_one_active_cycle (env : LoopEnv) (standby_list : List String)
    (this_node : String) (priority : Nat) (priority_wait : Bool)
    (h : (env.isActiveSelf = true ∧
           ∀ x ∈ standby_list, x ≠ this_node → env.isActiveHost x = false) ∨
         (env.isActiveSelf = false ∧
           ∃ x ∈ standby_list, x ≠ this_node ∧ env.isActiveHost x = true ∧
             ∀ y ∈ standby_list, y ≠ this_node → env.isActiveHost y = true →
               y = x)) :
    mainCycle env standby_list this_node priority priority_wait =
      .ok ⟨[], env.isActiveSelf, true, priority_wait⟩ ∧
    sleepTime priority_wait priority =
      (if priority_wait then PRI_WAIT_SEC * priority else HEARTBEAT_SEC) := by
  constructor
  · rcases h with ⟨hself, hpeers⟩ | ⟨hself, x, hx, hne, hact, _⟩
    · have hph := processHosts_no_split env this_node standby_list true true []
        (fun _ => hpeers)
      unfold mainCycle
      rw [hself, hph]
      simp
    · have hpa : peerActive env this_node standby_list = true := by
        simp only [peerActive, List.any_eq_true]
        exact ⟨x, hx, by simp [hne, hact]⟩
      have hph := processHosts_no_split env this_node standby_list false false []
        (fun hi => by cases hi)
      unfold mainCycle
      rw [hself, hph, hpa]
      simp
  · cases priority_wait with
    | false => simp [sleepTime]
    | true => simp [sleepTime]

/-- Witness for exactly_one_active_cycle at a concrete environment. -/
theorem exactly_one_active_cycle_witness :
    mainCycle envOnePeer ["n0", "n1"] "n0" 2 false =
      .ok ⟨[], false, true, false⟩ :=
  (exactly_one_active_cycle envOnePeer ["n0", "n1"] "n0" 2 false
    (Or.inr ⟨rfl, "n1", by decide, by decide, rfl, by decide⟩)).1

/-- The peer scan depends only on the probe results and the resolver
outcomes; the results of the deactivation commands are discarded. -/
theorem processHosts_resolve_congr (e1 e2 : LoopEnv) (node : String)
    (hh : e1.isActiveHost = e2.isActiveHost) (hr : e1.resolve = e2.resolve) :
    ∀ (l : List String) (i a : Bool) (evs : List Event),
      processHosts e1 node l i a evs = processHosts e2 node l i a evs := by
  intro l
  induction l with
  | nil =>
    intro i a evs
    simp [processHosts]
  | cons x rest ih =>
    intro i a evs
    simp only [processHosts, hh, hr]
    by_cases hx : x = node
    · simp only [if_pos hx]
      exact ih i a evs
    · simp only [if_neg hx]
      by_cases hcond : (i && e2.isActiveHost x) = true
      · simp only [if_pos hcond]
        rcases e2.resolve x with e | ha
        · rfl
        · cases ha with
          | true => simpa using ih false (a || true) _
          | false => simpa using ih i (a || false) _
      · simp only [if_neg hcond]
        exact ih i (a || e2.isActiveHost x) evs

/-- C10: the liveness state tracked for the remainder of a cycle comes
from the resolver decision alone. First, the whole cycle outcome is
unchanged under any deactivation (or activation) command results.
Second, when self and the first peer are both active and the resolver
decides for the remote, self is marked inactive and no further conflict
resolution or command occurs in the cycle, whatever deactivate_tegu
reported. Third, when the resolver decides for self, the peer feeds the
value false (the decision, not the probe) into the any-active
accumulator. -/
theorem split_decision_tracked :
    (∀ (e1 e2 : LoopEnv) (l : List String) (node : String)
        (prio : Nat) (pw : Bool),
      e1.isActiveSelf = e2.isActiveSelf →
      e1.isActiveHost = e2.isActiveHost →
      e1.resolve = e2.resolve →
      mainCycle e1 l node prio pw = mainCycle e2 l node prio pw) ∧
    (∀ (env : LoopEnv) (host node : String) (rest : List String)
        (prio : Nat) (pw : Bool),
      env.isActiveSelf = true → host ≠ node →
      env.isActiveHost host = true → env.resolve host = .ok true →
      mainCycle env (host :: rest) node prio pw =
        .ok ⟨[.resolveConflict host, .deactivateSelf], false, true, pw⟩) ∧
    (∀ (env : LoopEnv) (host node : String) (rest : List String)
        (a : Bool) (evs : List Event),
      host ≠ node → env.isActiveHost host = true →
      env.resolve host = .ok false →
      processHosts env node (host :: rest) true a evs =
        processHosts env node rest true (a || false)
          (evs ++ [.resolveConflict host, .deactivateHost host])) := by
  refine ⟨?_, ?_, ?_⟩
  · intro e1 e2 l node prio pw hs hh hr
    unfold mainCycle
    rw [hs, processHosts_resolve_congr e1 e2 node hh hr]
  · intro env host node rest prio pw hself hne hact hres
    have h0 : processHosts env node (host :: rest) true true [] =
        processHosts env node rest false true
          [.resolveConflict host, .deactivateSelf] := by
      simp [processHosts, hne, hact, hres]
    have h1 := processHosts_no_split env node rest false true
      [.resolveConflict host, .deactivateSelf] (fun hi => by cases hi)
    unfold mainCycle
    rw [hself, h0, h1]
    simp
  · intro env host node rest a evs hne hact hres
    simp [processHosts, hne, hact, hres]

/-- Witness for split_decision_tracked: even with deactSelfOk = false,
the cycle records self as inactive after the keep-remote decision. -/
theorem split_decision_tracked_witness :
    mainCycle envSplitRemote ["peer"] "me" 0 false =
      .ok ⟨[.resolveConflict "peer", .deactivateSelf], false, true, false⟩ :=
  split_decision_tracked.2.1 envSplitRemote "peer" "me" [] 0 false rfl
    (by decide) rfl rfl

/-- pyListIndex returns none exactly when the element is absent. -/
theorem pyListIndex_none_iff (l : List String) (x : String) :
    pyListIndex l x = none ↔ x ∉ l := by
  induction l with
  | nil => simp [pyListIndex]
  | cons y rest ih =>
    by_cases hy : y = x
    · simp [pyListIndex, hy]
    · have hxy : ¬ x = y := fun h => hy h.symm
      simp [pyListIndex, hy, hxy, Option.map_eq_none, ih]

/-- pyListIndex returns the position of the first occurrence. -/
theorem pyListIndex_first (l : List String) (x : String) :
    ∀ i, pyListIndex l x = some i →
      l.get? i = some x ∧ ∀ j, j < i → l.get? j ≠ some x := by
  induction l with
  | nil =>
    intro i h
    simp [pyListIndex] at h
  | cons y rest ih =>
    intro i h
    by_cases hy : y = x
    · simp [pyListIndex, hy] at h
      subst h
      simp [hy]
    · simp [pyListIndex, hy, Option.map_eq_some'] at h
      rcases h with ⟨n, hn, hi⟩
      rcases ih n hn with ⟨h1, h2⟩
      subst hi
      refine ⟨by simpa using h1, ?_⟩
      intro j hj
      cases j with
      | zero => simp [hy]
      | succ k =>
        simpa using h2 k (by omega)

/-- pyListRemove removes the first occurrence, like List.erase. -/
theorem pyListRemove_eq_erase (l : List String) (x : String) :
    pyListRemove l x = l.erase x := by
  induction l with
  | nil => simp [pyListRemove]
  | cons y rest ih =>
    by_cases hy : y = x
    · simp [pyListRemove, hy, List.erase_cons_head]
    · rw [List.erase_cons_tail (by simp [hy])]
      simp [pyListRemove, hy, ih]

/-- C5 counterexample: with the local node listed twice, it does not
appear exactly once, yet startup succeeds, keeps priority 0, and the
working copy still contains the local node. -/
theorem startup_duplicate_counterexample :
    (["dup", "dup"] : List String).count "dup" ≠ 1 ∧
    mainStartup ["dup", "dup"] "dup" = .ok (0, ["dup"]) := by
  decide

/-- C5 amended: startup succeeds iff the local node appears at least
once in the standby list; on success the recorded priority is the index
of the first occurrence and that first occurrence is removed from the
working copy; if the node is absent the process exits fatally with
status 1. -/
theorem startup_membership (standby_list : List String) (this_node : String) :
    ((∃ p, mainStartup standby_list this_node = .ok p) ↔
      this_node ∈ standby_list) ∧
    (this_node ∉ standby_list →
      mainStartup standby_list this_node = .error 1) ∧
    (∀ i peers, mainStartup standby_list this_node = .ok (i, peers) →
      standby_list.get? i = some this_node ∧
      (∀ j, j < i → standby_list.get? j ≠ some this_node) ∧
      peers = standby_list.erase this_node) := by
  refine ⟨⟨?_, ?_⟩, ?_, ?_⟩
  · rintro ⟨p, hp⟩
    unfold mainStartup at hp
    rcases hidx : pyListIndex standby_list this_node with _ | n
    · rw [hidx] at hp
      cases hp
    · by_contra hmem
      rw [(pyListIndex_none_iff standby_list this_node).mpr hmem] at hidx
      cases hidx
  · intro hmem
    rcases hidx : pyListIndex standby_list this_node with _ | n
    · exact absurd ((pyListIndex_none_iff _ _).mp hidx) (by simp [hmem])
    · exact ⟨(n, pyListRemove standby_list this_node), by
        simp [mainStartup, hidx]⟩
  · intro hmem
    simp [mainStartup, (pyListIndex_none_iff _ _).mpr hmem]
  · intro i peers hok
    unfold mainStartup at hok
    rcases hidx : pyListIndex standby_list this_node with _ | n
    · rw [hidx] at hok
      cases hok
    · rw [hidx] at hok
      cases hok
      rcases pyListIndex_first standby_list this_node i hidx with ⟨h1, h2⟩
      exact ⟨h1, h2, pyListRemove_eq_erase _ _⟩

/-- Witness for startup_membership at a concrete standby list. -/
theorem startup_membership_witness :
    mainStartup ["x", "y"] "y" = .ok (1, ["x"]) ∧
    (["x", "y"] : List String).get? 1 = some "y" ∧
    (["x"] : List String) = ["x", "y"].erase "y" :=
  ⟨by decide,
    ((startup_membership ["x", "y"] "y").2.2 1 ["x"] (by decide)).1,
    ((startup_membership ["x", "y"] "y").2.2 1 ["x"] (by decide)).2.2⟩

/-- C9 (code bug): a clock reading that succeeds as a command but is not
parseable as an integer makes int() raise ValueError; the except clause
catches only CalledProcessError, so should_be_active propagates the
ValueError instead of absorbing it and returning False, and main_loop,
which has no handler, propagates it out of the cycle: the loop
terminates on this runtime failure. -/
theorem clock_parse_failure_escapes :
    should_be_active envBadClock "peer.node" = .error .valueError ∧
    mainCycle envLoopBadClock ["peer.node"] "self.node" 0 false =
      .error .valueError := by
  decide

